import Mathlib

/-!
# Verification of the khatru-payments access-granting engine

Shallow embedding of the Go sources of `bitkarrot/khatru-payments`:
the paid-access record store and charge-mapping store (`storage.go`),
the payment providers (`phoenixd.go`, `zbd.go`), and the access
coordinator (`payments.go`: `System.VerifyPayment`,
`System.RejectEventHandler`, `System.GetStats`).

Modelling conventions:
* Go `time.Time` is modelled as `Int` (nanoseconds since some epoch);
  the zero value `0` is Go's zero `time.Time`, the "never expires"
  sentinel.  `a.After(b)` is `b < a`, `a.Before(b)` is `a < b`,
  `t.IsZero()` is `t = 0`.  `time.Now()` is passed explicitly as a
  `now : Int` parameter.
* Go `map[string]T` is modelled as an association list
  `List (String × T)`; Go maps have unique keys, captured by the
  well-formedness predicate `WFKeys` (no duplicate keys).  Assignment
  `m[k] = v` is `setEntry`, lookup is `getEntry`, `delete` inside a
  range loop is `List.filter`.
* Locking is modelled explicitly where it matters.  Read-only
  operations (`HasAccess`, `GetStats`, `Get`) take a shared lock on an
  otherwise-free mutex and return, so they are embedded as pure
  functions.  The access-record store's mutation paths are embedded as
  executions against an explicit `sync.RWMutex` model (`LockState`,
  `rwLock`, `rwRLock`), because `AddPaidAccess` and `CleanupExpired`
  call `Save()` — which takes `mutex.RLock()` — while still holding
  `mutex.Lock()` on the same non-reentrant mutex, and therefore block
  forever instead of returning (see the lock-model section).
* Outbound HTTP calls are replaced by an explicit parameter carrying
  the remote outcome (`HttpResult`): transport failure, or a status
  code with a decoded body.  A function's result as a function of that
  parameter is the function's behaviour for that remote outcome.
* Go's `(value, error)` pairs become `Option` values plus an
  `err : Option String` field (`none` = Go `nil` error).
-/

namespace KhatruPayments

/-! ## Association-list layer standing for Go maps -/

/-- Lookup in a Go map: first binding for the key, if any. -/
def getEntry {β : Type} (ms : List (String × β)) (k : String) : Option β :=
  match ms with
  | [] => none
  | (k', v) :: rest => if k' = k then some v else getEntry rest k

/-- Go map assignment `m[k] = v`: replace the binding if the key is
present, otherwise add it. -/
def setEntry {β : Type} (ms : List (String × β)) (k : String) (v : β) :
    List (String × β) :=
  match ms with
  | [] => [(k, v)]
  | (k', v') :: rest =>
    if k' = k then (k, v) :: rest else (k', v') :: setEntry rest k v

/-- Keys of the association list. -/
def entryKeys {β : Type} (ms : List (String × β)) : List String :=
  ms.map Prod.fst

/-- Well-formedness invariant of a Go map image: no duplicate keys. -/
def WFKeys {β : Type} (ms : List (String × β)) : Prop :=
  (entryKeys ms).Nodup

/-- Number of bindings an association list holds for a key. -/
def countKey {β : Type} (ms : List (String × β)) (k : String) : Nat :=
  (ms.filter (fun e => e.1 = k)).length

/-! ## Time model (Go `time.Time` as `Int`) -/

/-- `a.After(b)` for Go times. -/
def timeAfter (a b : Int) : Bool := b < a

/-- `a.Before(b)` for Go times. -/
def timeBefore (a b : Int) : Bool := a < b

/-- `t.IsZero()`: the zero `time.Time`, used as the "never expires"
sentinel. -/
def timeIsZero (t : Int) : Bool := t = 0

/-! ## Access Record Store (`storage.go`: `PaidAccessStorage`) -/

/-- `PaidAccessMember`: a user who has paid for access
(`storage.go`). -/
structure PaidAccessMember where
  pubkey : String
  paymentHash : String
  expiresAt : Int
  createdAt : Int
  amount : Int
  deriving Repr, DecidableEq

/-- In-memory image of `PaidAccessStorage.Members`
(`map[string]*PaidAccessMember`). -/
abbrev Members := List (String × PaidAccessMember)

/-- `PaidAccessStorage.HasAccess`: the member exists and
(`ExpiresAt.IsZero()` or not `time.Now().After(ExpiresAt)`). -/
def hasAccess (ms : Members) (pk : String) (now : Int) : Bool :=
  match getEntry ms pk with
  | none => false
  | some member =>
    if !timeIsZero member.expiresAt && timeAfter now member.expiresAt then
      false
    else
      true

/-- The member record `AddPaidAccess` builds: expiry `now.Add(duration)`,
replaced by the zero sentinel when `duration == 0`. -/
def grantedMember (pk ph : String) (amount duration now : Int) :
    PaidAccessMember :=
  { pubkey := pk, paymentHash := ph,
    expiresAt := if duration = 0 then 0 else now + duration,
    createdAt := now, amount := amount }

/-- The removal test of `PaidAccessStorage.CleanupExpired`:
`!member.ExpiresAt.IsZero() && now.After(member.ExpiresAt)`. -/
def isExpiredAt (m : PaidAccessMember) (now : Int) : Bool :=
  !timeIsZero m.expiresAt && timeAfter now m.expiresAt

/-- The active test of `PaidAccessStorage.GetStats`:
`member.ExpiresAt.IsZero() || now.Before(member.ExpiresAt)`. -/
def isActiveAt (m : PaidAccessMember) (now : Int) : Bool :=
  timeIsZero m.expiresAt || timeBefore now m.expiresAt

/-- The three counters returned by `PaidAccessStorage.GetStats`. -/
structure Stats where
  totalMembers : Nat
  activeMembers : Nat
  expiredMembers : Nat
  deriving Repr, DecidableEq

/-- `PaidAccessStorage.GetStats`: `total_members = len(Members)`; the
loop adds each member to `active_members` when
`ExpiresAt.IsZero() || now.Before(ExpiresAt)` and to
`expired_members` otherwise. -/
def getStats (ms : Members) (now : Int) : Stats :=
  { totalMembers := ms.length
    activeMembers := (ms.filter (fun e => isActiveAt e.2 now)).length
    expiredMembers := (ms.filter (fun e => !isActiveAt e.2 now)).length }

/-! ## Payment-Hash Mapping Store (`storage.go`: `ChargeMappingStorage`) -/

/-- In-memory image of `ChargeMappingStorage.Mappings`
(`map[string]string` from payment hash to charge reference). -/
abbrev Mappings := List (String × String)

/-- `ChargeMappingStorage.Get(paymentHash)`: shared-lock lookup
returning `(chargeID, exists)`. -/
def chargeMappingGet (mp : Mappings) (ph : String) : Option String :=
  getEntry mp ph

/-! ## Provider abstraction (`payments.go`: `PaymentProvider`) -/

/-- `Invoice` (`payments.go`). -/
structure Invoice where
  paymentRequest : String
  paymentHash : String
  amount : Int
  description : String
  expiresAt : Int
  deriving Repr, DecidableEq

/-- `PaymentVerification` (`payments.go`). -/
structure PaymentVerification where
  paid : Bool
  paymentHash : String
  amount : Int
  paidAt : Int
  deriving Repr, DecidableEq

/-- Outcome of one outbound HTTP request, passed as an explicit
parameter: `client.Do` fails (`transportError`), or a response with a
status code and (for 200-responses) a decoded body of type `β`. -/
inductive HttpResult (β : Type) where
  | transportError
  | response (status : Nat) (body : β)
  deriving Repr, DecidableEq

/-- Go's `(*PaymentVerification, error)` pair as returned by a
provider's `VerifyPayment`, together with the provider's mutated
state (both providers write resolved mappings back into their
in-memory cache). -/
structure ProviderVerifyResult (σ : Type) where
  state : σ
  verification : Option PaymentVerification
  err : Option String
  deriving Repr, DecidableEq

/-! ## phoenixd provider (`phoenixd.go`) -/

/-- Decoded `PhoenixdPaymentResponse` body (fields the verification
path reads). -/
structure PhoenixdPaymentResponse where
  isPaid : Bool
  receivedSat : Int
  completedAt : Int
  deriving Repr, DecidableEq

/-- Mutable state of `PhoenixdProvider`: the in-memory
`paymentMap[paymentHash] = externalID` cache and the optional
persistent `chargeMappingStorage` (`none` models a nil pointer). -/
structure PhoenixdState where
  paymentMap : Mappings
  chargeStorage : Option Mappings
  deriving Repr, DecidableEq

/-- The mapping-resolution prefix of `PhoenixdProvider.VerifyPayment`:
read `paymentMap[paymentHash]`; only if absent and
`chargeMappingStorage != nil`, call `Get` on the durable store and on
a hit write the value back into `paymentMap`. -/
def phoenixdResolve (st : PhoenixdState) (hash : String) :
    Option String × PhoenixdState :=
  match getEntry st.paymentMap hash with
  | some externalID => (some externalID, st)
  | none =>
    match st.chargeStorage with
    | none => (none, st)
    | some cs =>
      match chargeMappingGet cs hash with
      | some storedID =>
        (some storedID,
         { st with paymentMap := setEntry st.paymentMap hash storedID })
      | none => (none, st)

/-- `PhoenixdProvider.VerifyPayment(paymentHash)`: resolve the
mapping; with no mapping return a non-error `Paid: false` result
without calling the remote API; otherwise query
`/payments/incoming/<hash>`: transport failure is an error, 404 is a
non-error `Paid: false` result, any other non-200 status is an error,
and a 200 body yields `Paid = IsPaid`,
`Amount = ReceivedSat * 1000`, `PaidAt = CompletedAt`. -/
def phoenixdVerifyPayment (st : PhoenixdState) (hash : String)
    (remote : HttpResult PhoenixdPaymentResponse) :
    ProviderVerifyResult PhoenixdState :=
  let resolved := phoenixdResolve st hash
  match resolved.1 with
  | none =>
    { state := resolved.2,
      verification :=
        some { paid := false, paymentHash := hash, amount := 0, paidAt := 0 },
      err := none }
  | some _ =>
    match remote with
    | .transportError =>
      { state := resolved.2, verification := none,
        err := some "failed to make request" }
    | .response status body =>
      if status = 404 then
        { state := resolved.2,
          verification :=
            some { paid := false, paymentHash := hash, amount := 0,
                   paidAt := 0 },
          err := none }
      else if status ≠ 200 then
        { state := resolved.2, verification := none,
          err := some "phoenixd API error" }
      else
        { state := resolved.2,
          verification :=
            some { paid := body.isPaid, paymentHash := hash,
                   amount := body.receivedSat * 1000,
                   paidAt := body.completedAt },
          err := none }

/-! ## ZBD provider (`zbd.go`) -/

/-- Decoded `ZBDChargeData` body (fields the verification path
reads).  `confirmedAt` is the parse of the RFC3339 `ConfirmedAt`
field: `none` for an empty field, `some t` for a field parsing to
time `t` (a malformed field parses to the zero time `some 0`, as
Go's discarded parse error leaves the zero value). -/
structure ZBDChargeData where
  status : String
  amountField : String
  confirmedAt : Option Int
  deriving Repr, DecidableEq

/-- Mutable state of `ZBDProvider`: the in-memory
`chargeMap[paymentHash] = chargeID` cache and the optional persistent
`chargeMappingStorage` (`none` models a nil pointer). -/
structure ZBDState where
  chargeMap : Mappings
  chargeStorage : Option Mappings
  deriving Repr, DecidableEq

/-- The mapping-resolution prefix of `ZBDProvider.VerifyPayment`:
read `chargeMap[paymentHash]`; only if absent and
`chargeMappingStorage != nil`, call `Get` on the durable store and on
a hit load the value back into `chargeMap`. -/
def zbdResolve (st : ZBDState) (hash : String) :
    Option String × ZBDState :=
  match getEntry st.chargeMap hash with
  | some chargeID => (some chargeID, st)
  | none =>
    match st.chargeStorage with
    | none => (none, st)
    | some cs =>
      match chargeMappingGet cs hash with
      | some chargeID =>
        (some chargeID,
         { st with chargeMap := setEntry st.chargeMap hash chargeID })
      | none => (none, st)

/-- `ZBDProvider.VerifyPayment(paymentHash)`: resolve the charge ID;
with no mapping return `Paid: false` together with the error
`"charge ID not found for payment hash: <hash>"` without calling the
remote API; otherwise query `/v0/charges/<chargeID>`: transport
failure is an error, any status other than 200 (including 404) is an
error paired with a `Paid: false` value, and a 200 body yields
`Paid = (Status == "completed")`, the parsed amount, and the
confirmation time when paid. -/
def zbdVerifyPayment (st : ZBDState) (hash : String)
    (remote : HttpResult ZBDChargeData) : ProviderVerifyResult ZBDState :=
  let resolved := zbdResolve st hash
  match resolved.1 with
  | none =>
    { state := resolved.2,
      verification :=
        some { paid := false, paymentHash := hash, amount := 0, paidAt := 0 },
      err := some ("charge ID not found for payment hash: " ++ hash) }
  | some _ =>
    match remote with
    | .transportError =>
      { state := resolved.2, verification := none,
        err := some "failed to make request" }
    | .response status body =>
      if status ≠ 200 then
        { state := resolved.2,
          verification :=
            some { paid := false, paymentHash := hash, amount := 0,
                   paidAt := 0 },
          err := some "ZBD API error" }
      else
        let isPaid := body.status == "completed"
        let paidAt : Int :=
          if isPaid then
            match body.confirmedAt with
            | some t => t
            | none => 0
          else 0
        let amount : Int :=
          if body.amountField ≠ "" then
            (body.amountField.toInt?).getD 0
          else 0
        { state := resolved.2,
          verification :=
            some { paid := isPaid, paymentHash := hash, amount := amount,
                   paidAt := paidAt },
          err := none }

/-! ## Access Coordinator (`payments.go`: `System`) -/

/-- The parts of `System` the verified operations read and write: the
access-record store's member map and the two atomic counters. -/
structure SystemState where
  members : Members
  paymentRequests : Nat
  successfulPayments : Nat
  deriving Repr, DecidableEq

/-- The reject payload of `System.RejectEventHandler`.  `allowed`
stands for the empty string `""`; `invoiceFailed` for the generic
constant `"payment required but invoice creation failed"`;
`paymentRequest m i a` for the `json.Marshal` of the Go
`PaymentRequest` struct whose `Message`, `Invoice` and `Amount`
fields are `m`, `i` and `a` (the JSON wire syntax itself is an
external format and is abstracted to the marshalled fields). -/
inductive GateReason where
  | allowed
  | invoiceFailed
  | paymentRequest (message invoice : String) (amount : Int)
  deriving Repr, DecidableEq

/-- Result of `System.RejectEventHandler`: mutated state, the
`blocked` boolean, and the payload. -/
structure GateResult where
  state : SystemState
  blocked : Bool
  reason : GateReason
  deriving Repr, DecidableEq

/-- `System.RejectEventHandler` for an event from `pk`.  If
`HasAccess(pk)`, allow with an empty payload and no state change.
Otherwise increment `paymentRequests` and call `CreateInvoice`
(abstracted by its outcome `invoiceResult`): on failure, block with
the generic failure message; on success, block with the marshalled
`PaymentRequest` carrying the configured `RejectMessage`, the
invoice's `PaymentRequest` string, and the invoice's `Amount`. -/
def rejectEventHandler (st : SystemState) (pk : String)
    (invoiceResult : Except String Invoice) (rejectMessage : String)
    (now : Int) : GateResult :=
  if hasAccess st.members pk now then
    { state := st, blocked := false, reason := .allowed }
  else
    let st1 : SystemState :=
      { st with paymentRequests := st.paymentRequests + 1 }
    match invoiceResult with
    | .error _ =>
      { state := st1, blocked := true, reason := .invoiceFailed }
    | .ok inv =>
      { state := st1, blocked := true,
        reason := .paymentRequest rejectMessage inv.paymentRequest inv.amount }

/-! ## Durable file writes (`storage.go`: `Save` / `save`)

Both stores persist with `ioutil.WriteFile(filePath, data, 0644)`.
Per the Go standard library, `WriteFile` opens the file with
`O_WRONLY|O_CREATE|O_TRUNC` — truncating any existing content — and
then writes the data; it does not write to a temporary file and
rename.  We model one save as the sequence of these two file-system
effects and examine every crash point between them. -/

/-- One file-system effect of a save. -/
inductive FsOp where
  | truncate
  | writeAll (data : String)
  deriving Repr, DecidableEq

/-- Effect of one operation on the file's content. -/
def applyFsOp : String → FsOp → String
  | _, .truncate => ""
  | _, .writeAll d => d

/-- The file-system effects of `ioutil.WriteFile(path, data, perm)`:
truncate, then write the whole buffer. -/
def writeFileOps (data : String) : List FsOp :=
  [FsOp.truncate, FsOp.writeAll data]

/-- Content of the file if the process crashes after the first `k`
operations of a save over initial content `initial`. -/
def fileAfterCrash (initial : String) (ops : List FsOp) (k : Nat) : String :=
  (ops.take k).foldl applyFsOp initial

/-- Serialization of one member record. -/
def encodeMember (m : PaidAccessMember) : String :=
  m.pubkey ++ "|" ++ m.paymentHash ++ "|" ++ toString m.expiresAt ++ "|"
    ++ toString m.createdAt ++ "|" ++ toString m.amount

/-- Stands for `json.MarshalIndent` of the whole `PaidAccessStorage`
struct: a single document computed from the entire member table (the
development relies only on the save writing one whole-table document,
never on the JSON syntax itself). -/
def encodeMembers (ms : Members) : String :=
  "members:" ++ String.intercalate ";"
    (ms.map (fun e => e.1 ++ "=" ++ encodeMember e.2))

/-- Stands for `json.MarshalIndent` of the whole
`ChargeMappingStorage` struct. -/
def encodeMappings (mp : Mappings) : String :=
  "mappings:" ++ String.intercalate ";"
    (mp.map (fun e => e.1 ++ "=" ++ e.2))

/-- File-system effects of `PaidAccessStorage.Save()` on a store
holding `ms`. -/
def paidAccessSaveOps (ms : Members) : List FsOp :=
  writeFileOps (encodeMembers ms)

/-- File-system effects of `ChargeMappingStorage.save()` on a store
holding `mp`. -/
def chargeMappingSaveOps (mp : Mappings) : List FsOp :=
  writeFileOps (encodeMappings mp)

/-! ## Lock model and execution of the mutation paths

`PaidAccessStorage` guards its state with one `sync.RWMutex`.
`AddPaidAccess` and `CleanupExpired` take `mutex.Lock()` and then
call `Save()`, and `Save()` itself takes `mutex.RLock()` on the same
mutex.  Go's `sync.RWMutex` is not reentrant: an `RLock` taken while
the same goroutine holds the write lock blocks until the writer
releases it, which never happens here.  The mutation paths are
therefore embedded as executions against an explicit mutex state: an
operation either returns, or blocks forever (`deadlock`) carrying
the shared in-memory state and the file-system operations it had
issued up to that point.  Each operation is run on one goroutine in
isolation, the most favourable schedule — contention can only add
further blocking, never unblock the `RLock`. -/

/-- State of the store's `sync.RWMutex` as seen by the single
goroutine running the operation. -/
inductive LockState where
  | free
  | writeHeld
  | readHeld (n : Nat)
  deriving Repr, DecidableEq

/-- `mutex.Lock()` run in isolation: acquires a free mutex; blocks
forever (`none`) otherwise, since no other goroutine will ever
release the mutex. -/
def rwLock : LockState → Option LockState
  | .free => some .writeHeld
  | _ => none

/-- `mutex.RLock()` run in isolation: a shared acquisition succeeds
unless the write lock is held; Go's `RWMutex` is not reentrant, so
an `RLock` under the goroutine's own held write lock blocks forever
(`none`). -/
def rwRLock : LockState → Option LockState
  | .free => some (.readHeld 1)
  | .readHeld n => some (.readHeld (n + 1))
  | .writeHeld => none

/-- `mutex.RUnlock()`. -/
def rwRUnlock : LockState → LockState
  | .readHeld 1 => .free
  | .readHeld (n + 2) => .readHeld (n + 1)
  | s => s

/-- Outcome of running one store operation to completion on one
goroutine: either the call returns a value, or the goroutine blocks
forever on a lock acquisition; both cases carry the shared in-memory
state and the file-system operations issued up to that point. -/
inductive ExecOutcome (α σ : Type) where
  | returns (val : α) (state : σ) (fsOps : List FsOp)
  | deadlock (state : σ) (fsOps : List FsOp)
  deriving Repr, DecidableEq

/-- `PaidAccessStorage.Save()` entered while the calling goroutine is
in lock state `lock`: takes `mutex.RLock()` — blocking forever under
a held write lock (`none`) — then marshals the whole store, runs
`ioutil.WriteFile` (success given by `saveOk`), and releases the
read lock.  A completed call yields the lock state after `RUnlock`,
the attempted file-system operations, and whether an error was
returned. -/
def paidAccessSaveExec (lock : LockState) (ms : Members) (saveOk : Bool) :
    Option (LockState × List FsOp × Bool) :=
  match rwRLock lock with
  | none => none
  | some l1 => some (rwRUnlock l1, paidAccessSaveOps ms, !saveOk)

/-- `PaidAccessStorage.AddPaidAccess(pubkey, paymentHash, amount,
duration)` run from a free mutex: `mutex.Lock()` succeeds, the member
map is mutated, then `Save()` is called under the still-held write
lock — where its `RLock` blocks forever.  The source's
return-with-error and return-nil paths are written out below exactly
as the code reads, but no execution reaches them. -/
def addPaidAccessExec (ms : Members) (pk ph : String)
    (amount duration now : Int) (saveOk : Bool) :
    ExecOutcome Bool Members :=
  match rwLock .free with
  | none => .deadlock ms []
  | some l1 =>
    let ms1 := setEntry ms pk (grantedMember pk ph amount duration now)
    match paidAccessSaveExec l1 ms1 saveOk with
    | none => .deadlock ms1 []
    | some (_, ops, isErr) => .returns isErr ms1 ops

/-- `PaidAccessStorage.CleanupExpired` run from a free mutex:
`mutex.Lock()` succeeds and every member whose expiry is non-sentinel
and strictly before `now` is deleted; if at least one was deleted the
code calls `Save()` under the still-held write lock — where its
`RLock` blocks forever — and otherwise it returns nil without
persisting. -/
def cleanupExpiredExec (ms : Members) (now : Int) (saveOk : Bool) :
    ExecOutcome Bool Members :=
  match rwLock .free with
  | none => .deadlock ms []
  | some l1 =>
    let kept := ms.filter (fun e => !isExpiredAt e.2 now)
    let cleaned := (ms.filter (fun e => isExpiredAt e.2 now)).length
    if 0 < cleaned then
      match paidAccessSaveExec l1 kept saveOk with
      | none => .deadlock kept []
      | some (_, ops, isErr) => .returns isErr kept ops
    else
      .returns false kept []

/-- `ChargeMappingStorage.Store(paymentHash, chargeID)` run from a
free mutex: `mutex.Lock()` succeeds, the mapping is inserted or
overwritten, and the lowercase `save()` — which takes no lock —
marshals the whole table and runs `ioutil.WriteFile`; the call
returns, with an error exactly when the write failed. -/
def chargeMappingStoreExec (mp : Mappings) (ph cid : String)
    (saveOk : Bool) : ExecOutcome Bool Mappings :=
  match rwLock .free with
  | none => .deadlock mp []
  | some _ =>
    let mp1 := setEntry mp ph cid
    .returns (!saveOk) mp1 (chargeMappingSaveOps mp1)

/-- `System.VerifyPayment(paymentHash, pubkey)` with the provider
call abstracted by its caller-observable outcome `providerResult`
(callers check the error first, and every provider returns a non-nil
verification alongside a nil error).  On a provider error, return it
with no state change.  On `Paid == true` the coordinator calls
`AddPaidAccess(pubkey, paymentHash, verification.Amount,
accessDuration)`, which self-deadlocks: the call never returns and
`successfulPayments` is never incremented; only the in-memory
member-map mutation is left behind.  On `Paid == false`, return the
verification with no state change.  The post-grant error-return and
increment-and-return paths are written out exactly as the source
reads, but no execution reaches them. -/
def systemVerifyPaymentExec (st : SystemState) (hash pk : String)
    (providerResult : Except String PaymentVerification)
    (accessDuration now : Int) (saveOk : Bool) :
    ExecOutcome (Option PaymentVerification × Option String) SystemState :=
  match providerResult with
  | .error e => .returns (none, some e) st []
  | .ok v =>
    if v.paid then
      match addPaidAccessExec st.members pk hash v.amount accessDuration
          now saveOk with
      | .deadlock ms1 ops => .deadlock { st with members := ms1 } ops
      | .returns isErr ms1 ops =>
        if isErr then
          .returns (none, some "failed to grant access")
            { st with members := ms1 } ops
        else
          .returns (some v, none)
            ⟨ms1, st.paymentRequests, st.successfulPayments + 1⟩ ops
    else
      .returns (some v, none) st []

/-! ## Lemmas about the association-list layer -/

theorem getEntry_setEntry_self {β : Type} (ms : List (String × β)) (k : String)
    (v : β) : getEntry (setEntry ms k v) k = some v := by
  induction ms with
  | nil => simp [setEntry, getEntry]
  | cons e rest ih =>
    obtain ⟨k', v'⟩ := e
    by_cases h : k' = k
    · simp [setEntry, h, getEntry]
    · simp [setEntry, h, getEntry, ih]

theorem getEntry_setEntry_ne {β : Type} (ms : List (String × β)) (k q : String)
    (v : β) (h : q ≠ k) : getEntry (setEntry ms k v) q = getEntry ms q := by
  have hkq : ¬ k = q := fun hh => h hh.symm
  induction ms with
  | nil => simp [setEntry, getEntry, hkq]
  | cons e rest ih =>
    obtain ⟨k', v'⟩ := e
    by_cases hk : k' = k
    · subst hk
      simp [setEntry, getEntry, hkq]
    · simp only [setEntry, if_neg hk, getEntry]
      by_cases hq : k' = q
      · simp [hq]
      · simp [hq, ih]

theorem mem_entryKeys_setEntry {β : Type} (ms : List (String × β))
    (k q : String) (v : β) (h : q ∈ entryKeys (setEntry ms k v)) :
    q ∈ entryKeys ms ∨ q = k := by
  induction ms with
  | nil =>
    simp only [setEntry, entryKeys, List.map_cons, List.map_nil,
      List.mem_cons, List.not_mem_nil, or_false] at h
    exact Or.inr h
  | cons e rest ih =>
    obtain ⟨k', v'⟩ := e
    by_cases hk : k' = k
    · subst hk
      have h2 : q = k' ∨ q ∈ List.map Prod.fst rest := by
        simpa [setEntry, entryKeys] using h
      rcases h2 with h3 | h3
      · exact Or.inr h3
      · exact Or.inl (by simp [entryKeys, h3])
    · simp only [setEntry, if_neg hk, entryKeys, List.map_cons,
        List.mem_cons] at h ⊢
      rcases h with h | h
      · exact Or.inl (Or.inl h)
      · rcases ih h with h2 | h2
        · exact Or.inl (Or.inr h2)
        · exact Or.inr h2

theorem wfKeys_setEntry {β : Type} (ms : List (String × β)) (k : String)
    (v : β) (h : WFKeys ms) : WFKeys (setEntry ms k v) := by
  induction ms with
  | nil => simp [setEntry, WFKeys, entryKeys]
  | cons e rest ih =>
    obtain ⟨k', v'⟩ := e
    simp only [WFKeys, entryKeys, List.map_cons, List.nodup_cons] at h
    by_cases hk : k' = k
    · subst hk
      simpa [setEntry, WFKeys, entryKeys] using h
    · have h1 := ih h.2
      simp only [setEntry, if_neg hk, WFKeys, entryKeys, List.map_cons,
        List.nodup_cons]
      refine ⟨?_, h1⟩
      intro hmem
      rcases mem_entryKeys_setEntry rest k k' v hmem with h2 | h2
      · exact h.1 h2
      · exact hk h2

theorem getEntry_eq_none_of_not_mem {β : Type} (ms : List (String × β))
    (q : String) (h : q ∉ entryKeys ms) : getEntry ms q = none := by
  induction ms with
  | nil => rfl
  | cons e rest ih =>
    obtain ⟨k', v'⟩ := e
    simp only [entryKeys, List.map_cons, List.mem_cons, not_or] at h
    have hne : ¬ k' = q := fun hh => h.1 hh.symm
    simp [getEntry, hne, ih h.2]

theorem countKey_eq_zero_of_not_mem {β : Type} (ms : List (String × β))
    (q : String) (h : q ∉ entryKeys ms) : countKey ms q = 0 := by
  induction ms with
  | nil => rfl
  | cons e rest ih =>
    obtain ⟨k', v'⟩ := e
    simp only [entryKeys, List.map_cons, List.mem_cons, not_or] at h
    have hne : ¬ k' = q := fun hh => h.1 hh.symm
    simp only [countKey, List.filter_cons]
    rw [if_neg (by simpa using hne)]
    exact ih h.2

theorem countKey_setEntry_self {β : Type} (ms : List (String × β))
    (k : String) (v : β) (h : WFKeys ms) :
    countKey (setEntry ms k v) k = 1 := by
  induction ms with
  | nil => simp [setEntry, countKey]
  | cons e rest ih =>
    obtain ⟨k', v'⟩ := e
    simp only [WFKeys, entryKeys, List.map_cons, List.nodup_cons] at h
    by_cases hk : k' = k
    · subst hk
      simp only [setEntry, if_pos rfl, countKey, List.filter_cons]
      rw [if_pos (by simp)]
      have h0 : countKey rest k' = 0 := countKey_eq_zero_of_not_mem rest k' h.1
      simp only [countKey] at h0
      simp [h0]
    · have h1 := ih h.2
      simp only [setEntry, if_neg hk, countKey, List.filter_cons]
      rw [if_neg (by simpa using hk)]
      exact h1

theorem entryKeys_filter_subset {β : Type} (ms : List (String × β))
    (p : String × β → Bool) :
    ∀ q, q ∈ entryKeys (ms.filter p) → q ∈ entryKeys ms := by
  intro q hq
  simp only [entryKeys, List.mem_map] at hq ⊢
  obtain ⟨e, he, hfst⟩ := hq
  exact ⟨e, List.mem_of_mem_filter he, hfst⟩

theorem wfKeys_filter {β : Type} (ms : List (String × β))
    (p : String × β → Bool) (h : WFKeys ms) : WFKeys (ms.filter p) := by
  unfold WFKeys entryKeys at h ⊢
  exact List.Nodup.sublist ((List.filter_sublist ms).map Prod.fst) h

theorem getEntry_filter {β : Type} (ms : List (String × β))
    (p : String × β → Bool) (q : String) (h : WFKeys ms) :
    getEntry (ms.filter p) q =
      match getEntry ms q with
      | some v => if p (q, v) then some v else none
      | none => none := by
  induction ms with
  | nil => rfl
  | cons e rest ih =>
    obtain ⟨k', v'⟩ := e
    simp only [WFKeys, entryKeys, List.map_cons, List.nodup_cons] at h
    by_cases hq : k' = q
    · subst hq
      by_cases hp : p (k', v')
      · simp [List.filter_cons, hp, getEntry]
      · simp only [List.filter_cons, hp, Bool.false_eq_true, if_false,
          getEntry, if_pos rfl]
        have hnone : getEntry (rest.filter p) k' = none := by
          apply getEntry_eq_none_of_not_mem
          intro hmem
          exact h.1 (entryKeys_filter_subset rest p k' hmem)
        simp [hnone, hp]
    · by_cases hp : p (k', v')
      · simp only [List.filter_cons, hp, if_pos, getEntry, if_neg hq]
        exact ih h.2
      · simp only [List.filter_cons, hp, Bool.false_eq_true, if_false]
        rw [ih h.2]
        simp [getEntry, hq]

theorem filter_length_split {α : Type} (l : List α) (p : α → Bool) :
    (l.filter p).length + (l.filter (fun a => !(p a))).length = l.length := by
  induction l with
  | nil => rfl
  | cons a t ih =>
    by_cases h : p a <;> simp [List.filter_cons, h] <;> omega

/-! ## Claim C1: the access predicate -/

/-- Modelled from the spec words of claim C1, for comparison with the
code: access iff a record exists and (its expiry is the never-expires
sentinel OR its expiry is strictly in the future). -/
def hasAccessSpecStrict (ms : Members) (pk : String) (now : Int) : Bool :=
  match getEntry ms pk with
  | none => false
  | some m => timeIsZero m.expiresAt || timeBefore now m.expiresAt

/-- Claim C1, counterexample: at the instant `now` equals a record's
non-sentinel expiry, `HasAccess` returns `true` although the expiry
is not strictly in the future, so the claimed equivalence fails at
this concrete input. -/
theorem hasAccess_strict_counterexample :
    hasAccess
      [("pk1", { pubkey := "pk1", paymentHash := "h1", expiresAt := 100,
                 createdAt := 0, amount := 21000 })] "pk1" 100 = true
    ∧ hasAccessSpecStrict
      [("pk1", { pubkey := "pk1", paymentHash := "h1", expiresAt := 100,
                 createdAt := 0, amount := 21000 })] "pk1" 100 = false := by
  constructor
  · decide
  · decide

/-- Helper characterization of `hasAccess`, shared by several
claims. -/
theorem hasAccess_eq_true_iff (ms : Members) (pk : String) (now : Int) :
    hasAccess ms pk now = true ↔
      ∃ m, getEntry ms pk = some m ∧
        (m.expiresAt = 0 ∨ now ≤ m.expiresAt) := by
  unfold hasAccess
  cases hE : getEntry ms pk with
  | none => simp
  | some m =>
    constructor
    · intro hacc
      refine ⟨m, rfl, ?_⟩
      by_contra hc
      push_neg at hc
      simp [timeIsZero, timeAfter, hc.1, hc.2] at hacc
    · rintro ⟨m', hm', hcond⟩
      have hmm : m' = m := by
        injection hm' with h
        exact h.symm
      subst hmm
      rcases hcond with h0 | hle
      · simp [timeIsZero, h0]
      · have hnot : ¬ (m'.expiresAt < now) := by omega
        simp [timeAfter, hnot]

/-- Claim C1, amended: `HasAccess(pk)` returns `true` iff a record
for `pk` exists and either its expiry is the never-expires sentinel
or `now` does not exceed the expiry (`now ≤ expiry`, so access is
still granted at the instant `now = expiry`).  The function is a
pure read: it is total (never errors) and, being a function of the
store that returns only a boolean, never modifies the store. -/
theorem hasAccess_iff (ms : Members) (pk : String) (now : Int) :
    hasAccess ms pk now = true ↔
      ∃ m, getEntry ms pk = some m ∧
        (m.expiresAt = 0 ∨ now ≤ m.expiresAt) :=
  hasAccess_eq_true_iff ms pk now

/-! ## Claim C4: the shape of a grant -/

/-- Claim C4 (code bug): the claimed post-return store shape is never
observable, because every `AddPaidAccess` call self-deadlocks —
`Save()` takes `mutex.RLock()` while the call still holds
`mutex.Lock()` on the same non-reentrant `RWMutex` — so no successful
`AddPaidAccess` exists; the call blocks forever with no file-system
effect.  The in-memory mutation made before the hang does have the
shape the claim intends: exactly one record for `pk`, carrying hash
`ph`, amount `amount`, creation time `now` and expiry `now +
duration` (the never-expires sentinel when `duration == 0`), with
every other identity's binding unchanged. -/
theorem addPaidAccessExec_deadlock_frame (ms : Members) (pk ph : String)
    (amount duration now : Int) (saveOk : Bool) (hwf : WFKeys ms) :
    addPaidAccessExec ms pk ph amount duration now saveOk
      = .deadlock
          (setEntry ms pk (grantedMember pk ph amount duration now)) []
    ∧ getEntry (setEntry ms pk (grantedMember pk ph amount duration now)) pk
      = some (grantedMember pk ph amount duration now)
    ∧ (∀ q, q ≠ pk →
        getEntry (setEntry ms pk (grantedMember pk ph amount duration now)) q
          = getEntry ms q)
    ∧ countKey (setEntry ms pk (grantedMember pk ph amount duration now)) pk
        = 1
    ∧ WFKeys (setEntry ms pk (grantedMember pk ph amount duration now)) := by
  refine ⟨rfl, getEntry_setEntry_self ms pk _, ?_,
    countKey_setEntry_self ms pk _ hwf, wfKeys_setEntry ms pk _ hwf⟩
  intro q hq
  exact getEntry_setEntry_ne ms pk q _ hq

/-- Witness for `addPaidAccessExec_deadlock_frame` at a concrete
input. -/
theorem addPaidAccessExec_deadlock_frame_witness :
    addPaidAccessExec [] "p" "h" 21000 5 0 true
      = .deadlock [("p", grantedMember "p" "h" 21000 5 0)] []
    ∧ countKey [("p", grantedMember "p" "h" 21000 5 0)] "p" = 1 := by
  have h := addPaidAccessExec_deadlock_frame [] "p" "h" 21000 5 0 true
    (by unfold WFKeys entryKeys; decide)
  exact ⟨h.1, h.2.2.2.1⟩

/-! ## Claim C5: eviction of expired records -/

/-- Claim C5 (code bug): the in-memory removal is exactly as claimed
-- every record with non-sentinel expiry strictly before `now` is
deleted, never a never-expires record, and all others are left
unchanged -- and with nothing to remove the call returns as a
persisted-nothing no-op (so a repeated call is the same no-op).  But
whenever at least one record was removed, the code calls `Save()`
under the still-held write lock and self-deadlocks: nothing is
persisted and the call never returns, contradicting the claimed
persist-and-return behaviour. -/
theorem cleanupExpiredExec_spec (ms : Members) (now : Int) (saveOk : Bool)
    (hwf : WFKeys ms) :
    ((∀ e ∈ ms, isExpiredAt e.2 now = false) →
      cleanupExpiredExec ms now saveOk = .returns false ms [])
    ∧ ((∃ e ∈ ms, isExpiredAt e.2 now = true) →
      cleanupExpiredExec ms now saveOk
        = .deadlock (ms.filter (fun e => !isExpiredAt e.2 now)) [])
    ∧ (∀ pk m,
        getEntry (ms.filter (fun e => !isExpiredAt e.2 now)) pk = some m ↔
          (getEntry ms pk = some m ∧ isExpiredAt m now = false))
    ∧ (∀ pk m, getEntry ms pk = some m → m.expiresAt = 0 →
        getEntry (ms.filter (fun e => !isExpiredAt e.2 now)) pk = some m) := by
  have key : ∀ pk m,
      getEntry (ms.filter (fun e => !isExpiredAt e.2 now)) pk = some m ↔
        (getEntry ms pk = some m ∧ isExpiredAt m now = false) := by
    intro pk m
    rw [getEntry_filter ms (fun e => !isExpiredAt e.2 now) pk hwf]
    cases hE : getEntry ms pk with
    | none => simp
    | some v =>
      by_cases hx : isExpiredAt v now
      · simp only [hx, Bool.not_true, Bool.false_eq_true, if_false]
        constructor
        · intro hc
          exact absurd hc (by simp)
        · rintro ⟨hv, hfalse⟩
          have : v = m := by injection hv
          rw [← this] at hfalse
          rw [hfalse] at hx
          exact absurd hx (by simp)
      · simp only [Bool.not_eq_true] at hx
        simp [hx]
        intro h
        rw [← h]
        exact hx
  refine ⟨?_, ?_, key, ?_⟩
  · intro hnone
    have hnil : ms.filter (fun e => isExpiredAt e.2 now) = [] := by
      rw [List.filter_eq_nil_iff]
      intro e he
      simp [hnone e he]
    have hself : ms.filter (fun e => !isExpiredAt e.2 now) = ms := by
      rw [List.filter_eq_self]
      intro e he
      simp [hnone e he]
    simp [cleanupExpiredExec, rwLock, hnil, hself]
  · rintro ⟨e, he, hx⟩
    have hin : e ∈ ms.filter (fun e => isExpiredAt e.2 now) :=
      List.mem_filter.mpr ⟨he, hx⟩
    have hpos : 0 < (ms.filter (fun e => isExpiredAt e.2 now)).length :=
      List.length_pos.mpr (fun hnil => by simp [hnil] at hin)
    simp [cleanupExpiredExec, rwLock, paidAccessSaveExec, rwRLock, hpos]
  · intro pk m hE h0
    exact (key pk m).mpr ⟨hE, by simp [isExpiredAt, timeIsZero, h0]⟩

/-- Witness for `cleanupExpiredExec_spec` at concrete inputs: a store
with one expired and one never-expires record deadlocks after the
in-memory removal; a store with only the never-expires record
returns unchanged without persisting. -/
theorem cleanupExpiredExec_spec_witness :
    cleanupExpiredExec
      [("a", { pubkey := "a", paymentHash := "h1", expiresAt := 10,
               createdAt := 0, amount := 1 }),
       ("c", { pubkey := "c", paymentHash := "h3", expiresAt := 0,
               createdAt := 0, amount := 3 })] 100 true
      = .deadlock
          [("c", { pubkey := "c", paymentHash := "h3", expiresAt := 0,
                   createdAt := 0, amount := 3 })] []
    ∧ cleanupExpiredExec
      [("c", { pubkey := "c", paymentHash := "h3", expiresAt := 0,
               createdAt := 0, amount := 3 })] 100 true
      = .returns false
          [("c", { pubkey := "c", paymentHash := "h3", expiresAt := 0,
                   createdAt := 0, amount := 3 })] [] := by
  constructor
  · have h := (cleanupExpiredExec_spec
      [("a", { pubkey := "a", paymentHash := "h1", expiresAt := 10,
               createdAt := 0, amount := 1 }),
       ("c", { pubkey := "c", paymentHash := "h3", expiresAt := 0,
               createdAt := 0, amount := 3 })] 100 true
      (by unfold WFKeys entryKeys; decide)).2.1
      ⟨("a", { pubkey := "a", paymentHash := "h1", expiresAt := 10,
               createdAt := 0, amount := 1 }), by simp, by decide⟩
    simpa using h
  · have h := (cleanupExpiredExec_spec
      [("c", { pubkey := "c", paymentHash := "h3", expiresAt := 0,
               createdAt := 0, amount := 3 })] 100 true
      (by unfold WFKeys entryKeys; decide)).1 (by decide)
    exact h

/-! ## Claim C8: persistence failure and the in-memory mutation -/

/-- Claim C8 (code bug): the claimed scenario is unreachable.  With a
failing disk (`saveOk = false`), `AddPaidAccess` deadlocks acquiring
the `mutex.RLock()` inside `Save()` under its own held write lock before
`ioutil.WriteFile` can run or fail -- the deadlock outcome carries an
empty list of file-system operations -- so no error is ever returned
to the caller.  The other half of the claim does hold at the hang point:
the in-memory store already contains the newly added record, and no
rollback happens. -/
theorem addPaidAccessExec_saveFail_deadlock (ms : Members) (pk ph : String)
    (amount duration now : Int) :
    addPaidAccessExec ms pk ph amount duration now false
      = .deadlock
          (setEntry ms pk (grantedMember pk ph amount duration now)) []
    ∧ getEntry (setEntry ms pk (grantedMember pk ph amount duration now)) pk
      = some (grantedMember pk ph amount duration now) := by
  exact ⟨rfl, getEntry_setEntry_self ms pk _⟩

/-! ## Claim C10: stats buckets partition the store -/

/-- Claim C10 (confirmed): `GetStats` puts every member in exactly
one bucket (`active` when the expiry is the sentinel or `now` is
strictly before it, `expired` otherwise), so `total_members =
active_members + expired_members` in every state; and at the instant
`now` equals a non-sentinel expiry the member counts as expired while
`HasAccess` still returns `true`. -/
theorem getStats_partition :
    (∀ (ms : Members) (now : Int),
      (getStats ms now).totalMembers =
        (getStats ms now).activeMembers + (getStats ms now).expiredMembers)
    ∧ (∀ (ms : Members) (pk : String) (m : PaidAccessMember) (now : Int),
        getEntry ms pk = some m → m.expiresAt = now → m.expiresAt ≠ 0 →
        isActiveAt m now = false ∧ hasAccess ms pk now = true) := by
  constructor
  · intro ms now
    simpa [getStats] using
      (filter_length_split ms (fun e => isActiveAt e.2 now)).symm
  · intro ms pk m now hE hnow h0
    subst hnow
    constructor
    · simp [isActiveAt, timeIsZero, timeBefore, h0]
    · simp [hasAccess, hE, timeIsZero, timeAfter]

/-- Witness for `getStats_partition` at a concrete input. -/
theorem getStats_partition_witness :
    isActiveAt { pubkey := "d", paymentHash := "h", expiresAt := 50,
                 createdAt := 0, amount := 7 } 50 = false
    ∧ hasAccess [("d", { pubkey := "d", paymentHash := "h", expiresAt := 50,
                         createdAt := 0, amount := 7 })] "d" 50 = true := by
  exact getStats_partition.2
    [("d", { pubkey := "d", paymentHash := "h", expiresAt := 50,
             createdAt := 0, amount := 7 })] "d" _ 50 rfl rfl (by decide)

/-! ## Claim C2: verify-and-grant transaction -/

/-- Claim C2 (code bug): the claimed post-return behaviour of
`System.VerifyPayment` on `paid == true` never happens, because the
coordinator calls `AddPaidAccess`, which self-deadlocks (the
`mutex.RLock()` inside `Save()` blocks under the held write lock):
the call never returns a verification or an error, the
`successful_payments` counter is never incremented, and only the
in-memory member-map mutation is left behind.  The non-granting
branches do behave as claimed: on `paid == false` the call returns
the verification with no grant and no counter change, and a provider
error is returned with the state untouched.  (Separately, under the
configured `"forever"` duration `New()` subtracts `time.Now()` from
the zero time, a saturated negative duration, so even the intended
grant record would be immediately expired.) -/
theorem systemVerifyPaymentExec_spec (st : SystemState) (hash pk : String)
    (v : PaymentVerification) (d now : Int) (saveOk : Bool) :
    (v.paid = true →
      systemVerifyPaymentExec st hash pk (.ok v) d now saveOk
        = .deadlock
            ⟨setEntry st.members pk (grantedMember pk hash v.amount d now),
             st.paymentRequests, st.successfulPayments⟩ [])
    ∧ (v.paid = false →
      systemVerifyPaymentExec st hash pk (.ok v) d now saveOk
        = .returns (some v, none) st [])
    ∧ (∀ e, systemVerifyPaymentExec st hash pk (.error e) d now saveOk
        = .returns (none, some e) st []) := by
  refine ⟨?_, ?_, ?_⟩
  · intro hp
    simp [systemVerifyPaymentExec, hp, addPaidAccessExec,
      paidAccessSaveExec, rwLock, rwRLock]
  · intro hp
    simp [systemVerifyPaymentExec, hp]
  · intro e
    rfl

/-- Witness for `systemVerifyPaymentExec_spec` at a concrete input:
a provider-confirmed payment leaves the coordinator deadlocked with
the counter not incremented. -/
theorem systemVerifyPaymentExec_spec_witness :
    systemVerifyPaymentExec (⟨[], 0, 0⟩ : SystemState) "h" "p"
      (.ok { paid := true, paymentHash := "h", amount := 21000, paidAt := 9 })
      2592000 0 true
      = .deadlock
          ⟨[("p", grantedMember "p" "h" 21000 2592000 0)], 0, 0⟩ [] := by
  have h := (systemVerifyPaymentExec_spec (⟨[], 0, 0⟩ : SystemState) "h" "p"
    { paid := true, paymentHash := "h", amount := 21000, paidAt := 9 }
    2592000 0 true).1 rfl
  exact h

/-! ## Claim C3: the admission gate -/

/-- Claim C3 (confirmed): `RejectEventHandler` returns not-blocked
with the empty payload when `HasAccess(pk)`; otherwise it increments
`payment_requests` and, on invoice-creation failure, blocks with the
generic failure message (fail closed), while on success it blocks
with the structured payload carrying the configured message, the
invoice's payment-request string (non-empty whenever the invoice's
is), and the invoice's amount. -/
theorem rejectEventHandler_spec (st : SystemState) (pk : String)
    (rejectMessage : String) (now : Int) :
    (hasAccess st.members pk now = true →
      ∀ invoiceResult,
        (rejectEventHandler st pk invoiceResult rejectMessage now).blocked
          = false
        ∧ (rejectEventHandler st pk invoiceResult rejectMessage now).reason
          = .allowed
        ∧ (rejectEventHandler st pk invoiceResult rejectMessage now).state
          = st)
    ∧ (hasAccess st.members pk now = false →
      ∀ e,
        (rejectEventHandler st pk (.error e) rejectMessage now).blocked = true
        ∧ (rejectEventHandler st pk (.error e) rejectMessage now).reason
          = .invoiceFailed
        ∧ (rejectEventHandler st pk (.error e) rejectMessage now).state.paymentRequests
          = st.paymentRequests + 1
        ∧ (rejectEventHandler st pk (.error e) rejectMessage now).state.members
          = st.members)
    ∧ (hasAccess st.members pk now = false →
      ∀ inv : Invoice,
        (rejectEventHandler st pk (.ok inv) rejectMessage now).blocked = true
        ∧ (rejectEventHandler st pk (.ok inv) rejectMessage now).reason
          = .paymentRequest rejectMessage inv.paymentRequest inv.amount
        ∧ (rejectEventHandler st pk (.ok inv) rejectMessage now).state.paymentRequests
          = st.paymentRequests + 1
        ∧ (inv.paymentRequest ≠ "" →
            ∀ m i a,
              (rejectEventHandler st pk (.ok inv) rejectMessage now).reason
                = .paymentRequest m i a → i ≠ "")) := by
  refine ⟨?_, ?_, ?_⟩
  · intro hacc invoiceResult
    refine ⟨?_, ?_, ?_⟩ <;> simp [rejectEventHandler, hacc]
  · intro hacc e
    refine ⟨?_, ?_, ?_, ?_⟩ <;> simp [rejectEventHandler, hacc]
  · intro hacc inv
    refine ⟨?_, ?_, ?_, ?_⟩
    · simp [rejectEventHandler, hacc]
    · simp [rejectEventHandler, hacc]
    · simp [rejectEventHandler, hacc]
    · intro hne m i a hreason
      have : i = inv.paymentRequest := by
        simp [rejectEventHandler, hacc] at hreason
        exact hreason.2.1.symm
      rw [this]
      exact hne

/-- Witness for `rejectEventHandler_spec` at a concrete input: an
identity with no access, an invoice that was created successfully. -/
theorem rejectEventHandler_spec_witness :
    (rejectEventHandler (⟨[], 0, 0⟩ : SystemState) "p"
      (.ok { paymentRequest := "lnbc21u1rest", paymentHash := "h",
             amount := 21000, description := "WoT Relay Access - pubkey:p",
             expiresAt := 3600 }) "pay to join" 0).blocked = true
    ∧ (rejectEventHandler (⟨[], 0, 0⟩ : SystemState) "p"
      (.ok { paymentRequest := "lnbc21u1rest", paymentHash := "h",
             amount := 21000, description := "WoT Relay Access - pubkey:p",
             expiresAt := 3600 }) "pay to join" 0).reason
      = .paymentRequest "pay to join" "lnbc21u1rest" 21000 := by
  have h := (rejectEventHandler_spec
    (⟨[], 0, 0⟩ : SystemState) "p"
    "pay to join" 0).2.2 rfl
    { paymentRequest := "lnbc21u1rest", paymentHash := "h",
      amount := 21000, description := "WoT Relay Access - pubkey:p",
      expiresAt := 3600 }
  exact ⟨h.1, h.2.1⟩

/-! ## Claim C6: remote "not found" handling -/

/-- Claim C6, counterexample: the ZBD provider translates a remote
404 ("record not found") status into an error — not into the claimed
non-error `paid == false` result — at this concrete input (mapping
present in the cache, remote responds 404). -/
theorem zbd_notFound_counterexample :
    ((zbdVerifyPayment ⟨[("h", "c")], none⟩ "h"
      (.response 404 ⟨"pending", "", none⟩)).err).isSome = true
    ∧ (zbdVerifyPayment ⟨[("h", "c")], none⟩ "h"
      (.response 404 ⟨"pending", "", none⟩)).err
      = some "ZBD API error" := by
  exact ⟨rfl, rfl⟩

/-- Claim C6, amended: the phoenixd provider maps a remote 404 to
`paid == false` with no error; transport failures and other
non-success statuses are errors.  The ZBD provider maps every
non-200 status — 404 included — and every transport failure to an
error.  In every provider-error case the coordinator performs no
grant: the call returns the error with the system state unchanged
and no file-system effect. -/
theorem verifyPayment_error_policy :
    (∀ (st : PhoenixdState) (hash eid : String)
       (body : PhoenixdPaymentResponse),
       getEntry st.paymentMap hash = some eid →
       (phoenixdVerifyPayment st hash (.response 404 body)).err = none
       ∧ (phoenixdVerifyPayment st hash (.response 404 body)).verification
         = some { paid := false, paymentHash := hash, amount := 0,
                  paidAt := 0 })
    ∧ (∀ (st : PhoenixdState) (hash eid : String),
       getEntry st.paymentMap hash = some eid →
       (phoenixdVerifyPayment st hash .transportError).err.isSome = true)
    ∧ (∀ (st : PhoenixdState) (hash eid : String) (status : Nat)
       (body : PhoenixdPaymentResponse),
       getEntry st.paymentMap hash = some eid →
       status ≠ 404 → status ≠ 200 →
       (phoenixdVerifyPayment st hash (.response status body)).err.isSome
         = true)
    ∧ (∀ (st : ZBDState) (hash cid : String) (status : Nat)
       (body : ZBDChargeData),
       getEntry st.chargeMap hash = some cid → status ≠ 200 →
       (zbdVerifyPayment st hash (.response status body)).err.isSome = true)
    ∧ (∀ (st : ZBDState) (hash cid : String),
       getEntry st.chargeMap hash = some cid →
       (zbdVerifyPayment st hash .transportError).err.isSome = true)
    ∧ (∀ (sys : SystemState) (hash pk e : String) (d now : Int)
       (saveOk : Bool),
       systemVerifyPaymentExec sys hash pk (.error e) d now saveOk
         = .returns (none, some e) sys []) := by
  refine ⟨?_, ?_, ?_, ?_, ?_, ?_⟩
  · intro st hash eid body hmem
    constructor <;>
      simp [phoenixdVerifyPayment, phoenixdResolve, hmem]
  · intro st hash eid hmem
    simp [phoenixdVerifyPayment, phoenixdResolve, hmem]
  · intro st hash eid status body hmem h404 h200
    simp [phoenixdVerifyPayment, phoenixdResolve, hmem, h404, h200]
  · intro st hash cid status body hmem h200
    simp [zbdVerifyPayment, zbdResolve, hmem, h200]
  · intro st hash cid hmem
    simp [zbdVerifyPayment, zbdResolve, hmem]
  · intro sys hash pk e d now saveOk
    rfl

/-- Witness for `verifyPayment_error_policy` at concrete inputs. -/
theorem verifyPayment_error_policy_witness :
    (phoenixdVerifyPayment ⟨[("h", "e")], none⟩ "h"
      (.response 404 ⟨false, 0, 0⟩)).err = none
    ∧ (zbdVerifyPayment ⟨[("h", "c")], none⟩ "h"
      (.response 500 ⟨"pending", "", none⟩)).err.isSome = true
    ∧ systemVerifyPaymentExec (⟨[], 0, 0⟩ : SystemState) "h" "p"
      (.error "boom") 5 0 true
      = .returns (none, some "boom") (⟨[], 0, 0⟩ : SystemState) [] := by
  refine ⟨?_, ?_, ?_⟩
  · exact (verifyPayment_error_policy.1 ⟨[("h", "e")], none⟩ "h" "e"
      ⟨false, 0, 0⟩ rfl).1
  · exact verifyPayment_error_policy.2.2.2.1 ⟨[("h", "c")], none⟩ "h" "c"
      500 ⟨"pending", "", none⟩ rfl (by decide)
  · exact verifyPayment_error_policy.2.2.2.2.2 ⟨[], 0, 0⟩ "h" "p" "boom"
      5 0 true

/-! ## Claim C7: secondary charge-reference resolution -/

/-- Claim C7, counterexample: the phoenixd provider, with no mapping
for the hash anywhere (empty cache, present-but-empty durable
store), does not fail: `VerifyPayment` returns a nil error and a
non-error `paid == false` result — contradicting "fails with a
NotFound-class error rather than succeeding". -/
theorem phoenixd_missingMapping_counterexample :
    (phoenixdVerifyPayment ⟨[], some []⟩ "h"
      (.response 200 ⟨true, 21, 99⟩)).err = none
    ∧ (phoenixdVerifyPayment ⟨[], some []⟩ "h"
      (.response 200 ⟨true, 21, 99⟩)).verification
      = some { paid := false, paymentHash := "h", amount := 0,
               paidAt := 0 } := by
  exact ⟨rfl, rfl⟩

/-- Claim C7, amended: both providers resolve the charge reference
from the in-memory cache first — on a cache hit the durable store is
not consulted and the cache is unchanged — and only on a cache miss
consult the durable store, loading a hit back into the cache.  When
no mapping exists anywhere, the ZBD provider fails with the
NotFound-class error `"charge ID not found for payment hash: …"`
without calling the remote API, while the phoenixd provider returns
a non-error `paid == false` result, likewise without calling the
remote API. -/
theorem chargeReference_resolution_spec :
    (∀ (mem : Mappings) (cs : Option Mappings) (hash cid : String),
       getEntry mem hash = some cid →
       zbdResolve ⟨mem, cs⟩ hash = (some cid, ⟨mem, cs⟩))
    ∧ (∀ (mem : Mappings) (cs : Option Mappings) (hash eid : String),
       getEntry mem hash = some eid →
       phoenixdResolve ⟨mem, cs⟩ hash = (some eid, ⟨mem, cs⟩))
    ∧ (∀ (mem cs : Mappings) (hash cid : String),
       getEntry mem hash = none → chargeMappingGet cs hash = some cid →
       zbdResolve ⟨mem, some cs⟩ hash
         = (some cid, ⟨setEntry mem hash cid, some cs⟩)
       ∧ phoenixdResolve ⟨mem, some cs⟩ hash
         = (some cid, ⟨setEntry mem hash cid, some cs⟩))
    ∧ (∀ (mem cs : Mappings) (hash : String)
       (remote : HttpResult ZBDChargeData),
       getEntry mem hash = none → chargeMappingGet cs hash = none →
       (zbdVerifyPayment ⟨mem, some cs⟩ hash remote).err
         = some ("charge ID not found for payment hash: " ++ hash)
       ∧ (∀ remote2, zbdVerifyPayment ⟨mem, some cs⟩ hash remote
           = zbdVerifyPayment ⟨mem, some cs⟩ hash remote2))
    ∧ (∀ (mem cs : Mappings) (hash : String)
       (remote : HttpResult PhoenixdPaymentResponse),
       getEntry mem hash = none → chargeMappingGet cs hash = none →
       (phoenixdVerifyPayment ⟨mem, some cs⟩ hash remote).err = none
       ∧ (phoenixdVerifyPayment ⟨mem, some cs⟩ hash remote).verification
         = some { paid := false, paymentHash := hash, amount := 0,
                  paidAt := 0 }
       ∧ (∀ remote2, phoenixdVerifyPayment ⟨mem, some cs⟩ hash remote
           = phoenixdVerifyPayment ⟨mem, some cs⟩ hash remote2)) := by
  refine ⟨?_, ?_, ?_, ?_, ?_⟩
  · intro mem cs hash cid hmem
    simp [zbdResolve, hmem]
  · intro mem cs hash eid hmem
    simp [phoenixdResolve, hmem]
  · intro mem cs hash cid hmem hcs
    constructor <;> simp [zbdResolve, phoenixdResolve, hmem, hcs]
  · intro mem cs hash remote hmem hcs
    refine ⟨?_, ?_⟩
    · cases remote <;>
        simp [zbdVerifyPayment, zbdResolve, hmem, hcs]
    · intro remote2
      cases remote <;> cases remote2 <;>
        simp [zbdVerifyPayment, zbdResolve, hmem, hcs]
  · intro mem cs hash remote hmem hcs
    refine ⟨?_, ?_, ?_⟩
    · cases remote <;> simp [phoenixdVerifyPayment, phoenixdResolve,
        hmem, hcs]
    · cases remote <;> simp [phoenixdVerifyPayment, phoenixdResolve,
        hmem, hcs]
    · intro remote2
      cases remote <;> cases remote2 <;>
        simp [phoenixdVerifyPayment, phoenixdResolve, hmem, hcs]

/-- Witness for `chargeReference_resolution_spec` at concrete
inputs. -/
theorem chargeReference_resolution_spec_witness :
    zbdResolve ⟨[("h", "c")], some [("h", "other")]⟩ "h"
      = (some "c", ⟨[("h", "c")], some [("h", "other")]⟩)
    ∧ (zbdVerifyPayment ⟨[], some []⟩ "h"
        (.response 200 ⟨"completed", "21000", some 9⟩)).err
      = some ("charge ID not found for payment hash: " ++ "h")
    ∧ (phoenixdVerifyPayment ⟨[], some []⟩ "h"
        (.response 200 ⟨true, 21, 9⟩)).err = none := by
  refine ⟨?_, ?_, ?_⟩
  · exact chargeReference_resolution_spec.1 [("h", "c")]
      (some [("h", "other")]) "h" "c" rfl
  · exact (chargeReference_resolution_spec.2.2.2.1 [] [] "h"
      (.response 200 ⟨"completed", "21000", some 9⟩) rfl rfl).1
  · exact (chargeReference_resolution_spec.2.2.2.2 [] [] "h"
      (.response 200 ⟨true, 21, 9⟩) rfl rfl).1

/-! ## Claim C9: durability of the whole-file save -/

/-- Claim C9, counterexample: with `ioutil.WriteFile` semantics
(truncate in place, then write), a crash between the truncate and
the write leaves a file that is neither the old document nor the new
document — here, the empty file — so the claimed "readers/crashes
never observe a partially-written file" fails at this concrete
input. -/
theorem save_atomicReplace_counterexample :
    fileAfterCrash (encodeMembers []) (paidAccessSaveOps
      [("p", { pubkey := "p", paymentHash := "h", expiresAt := 5,
               createdAt := 0, amount := 21 })]) 1 ≠ encodeMembers []
    ∧ fileAfterCrash (encodeMembers []) (paidAccessSaveOps
      [("p", { pubkey := "p", paymentHash := "h", expiresAt := 5,
               createdAt := 0, amount := 21 })]) 1
      ≠ encodeMembers [("p", { pubkey := "p", paymentHash := "h",
                               expiresAt := 5, createdAt := 0,
                               amount := 21 })] := by
  constructor <;> decide

/-- Helper: the serialized mapping table is never the empty
string. -/
theorem encodeMappings_ne_empty (mp : Mappings) : encodeMappings mp ≠ "" := by
  intro h
  have hlen := congrArg String.length h
  simp [encodeMappings, String.length_append] at hlen
  exact absurd hlen.1 (by decide)

/-- Claim C9, amended: the charge-mapping store's durable mutation
(`Store`) returns, serializing the full post-mutation table as one
document and issuing exactly one whole-document write as its final
file-system operation after the in-memory mutation (a completed save
leaves exactly the new document); the access-record store's
mutations, by contrast, never produce any file-system effect at all
— `AddPaidAccess` deadlocks inside `Save()` before the write, with
an empty operation list; and the write that does occur is the
truncate-then-write in place performed by `ioutil.WriteFile`, not an
atomic replace, so the crash point between the truncate and the write
exposes a file — the empty one — that is neither the old nor the new
document. -/
theorem durableWrite_spec (ms : Members) (mp : Mappings)
    (pk ph cid : String) (amount duration now : Int) (saveOk : Bool)
    (old : String) (hold : old ≠ "") :
    chargeMappingStoreExec mp ph cid true
      = .returns false (setEntry mp ph cid)
          (chargeMappingSaveOps (setEntry mp ph cid))
    ∧ ((chargeMappingSaveOps (setEntry mp ph cid)).filterMap fun op =>
        match op with
        | .writeAll d => some d
        | .truncate => none) = [encodeMappings (setEntry mp ph cid)]
    ∧ fileAfterCrash old (chargeMappingSaveOps (setEntry mp ph cid))
        (chargeMappingSaveOps (setEntry mp ph cid)).length
      = encodeMappings (setEntry mp ph cid)
    ∧ addPaidAccessExec ms pk ph amount duration now saveOk
      = .deadlock
          (setEntry ms pk (grantedMember pk ph amount duration now)) []
    ∧ fileAfterCrash old (chargeMappingSaveOps (setEntry mp ph cid)) 0 = old
    ∧ fileAfterCrash old (chargeMappingSaveOps (setEntry mp ph cid)) 1 ≠ old
    ∧ fileAfterCrash old (chargeMappingSaveOps (setEntry mp ph cid)) 1
      ≠ encodeMappings (setEntry mp ph cid) := by
  refine ⟨rfl, rfl, rfl, rfl, rfl, ?_, ?_⟩
  · show ("" : String) ≠ old
    exact fun h => hold h.symm
  · show ("" : String) ≠ encodeMappings (setEntry mp ph cid)
    exact fun h => encodeMappings_ne_empty (setEntry mp ph cid) h.symm

/-- Witness for `durableWrite_spec` at a concrete input. -/
theorem durableWrite_spec_witness :
    chargeMappingStoreExec [] "h" "c" true
      = .returns false [("h", "c")] (chargeMappingSaveOps [("h", "c")])
    ∧ addPaidAccessExec [] "p" "h" 21000 5 0 false
      = .deadlock [("p", grantedMember "p" "h" 21000 5 0)] []
    ∧ fileAfterCrash "olddoc" (chargeMappingSaveOps [("h", "c")]) 1
      ≠ "olddoc"
    ∧ fileAfterCrash "olddoc" (chargeMappingSaveOps [("h", "c")]) 1
      ≠ encodeMappings [("h", "c")] := by
  have h := durableWrite_spec [] [] "p" "h" "c" 21000 5 0 false "olddoc"
    (by decide)
  exact ⟨h.1, h.2.2.2.1, h.2.2.2.2.2.1, h.2.2.2.2.2.2⟩

end KhatruPayments
